import Mathlib

/-
Shallow embedding of the in-app-messaging orchestration engine from
packages/notifications/src/inAppMessaging/InAppMessaging.ts.

The class InAppMessaging holds four mutable fields (config,
listeningForAnalyticEvents, pluggables, storageSynced); we model it as an
explicit state record IAMState threaded through every operation.  External
collaborators (the key-value storage capability, JSON serialization, the
providers, the Hub event bus and the lifecycle listeners) are modeled as
values, and every externally observable action an operation performs is
recorded in an ordered effect trace, so that claims such as "publishes
MESSAGES_RECEIVED exactly once" or "makes no provider call" are statements
about the trace.
-/

namespace AmplifyIAM

/-- Model of the key-value storage capability handed to the engine by
StorageHelper.  The persisted data is an association list from keys to
serialized strings.  The three failure flags model the corresponding
operation throwing when invoked; syncResult models the optional sync
function: none means the storage object has no sync function, some true a
sync call that succeeds, some false a sync call that throws. -/
structure StorageModel where
  store : List (String × String)
  getFails : Bool
  setFails : Bool
  removeFails : Bool
  syncResult : Option Bool
deriving DecidableEq

/-- JavaScript-like values held in the engine configuration object: the
storage capability, booleans, strings, and nested objects. -/
inductive CfgVal where
  | vStorage : StorageModel → CfgVal
  | vBool : Bool → CfgVal
  | vStr : String → CfgVal
  | vObj : List (String × CfgVal) → CfgVal

/-- Configuration objects are association lists from keys to values. -/
abbrev Config := List (String × CfgVal)

/-- Truthiness of a configuration value, as JavaScript would coerce it:
booleans are themselves, a string is truthy when non-empty, and any object
(including the storage capability) is truthy. -/
def cfgTruthy : CfgVal → Bool
  | CfgVal.vBool b => b
  | CfgVal.vStr s => !(s == "")
  | CfgVal.vObj _ => true
  | CfgVal.vStorage _ => true

/-- Shallow merge of two configuration objects, modelling the JavaScript
object spread of a then b, where keys of b win.  Defined recursively: a key
of a survives only when b does not bind it. -/
def mergeAssoc (a b : Config) : Config :=
  match a with
  | [] => b
  | (k1, v1) :: rest =>
    if (List.lookup k1 b).isNone then (k1, v1) :: mergeAssoc rest b else mergeAssoc rest b

/-- Removal of one key from a configuration object, modelling the rest
pattern of a destructuring that binds that key separately. -/
def eraseKey (k : String) : Config → Config
  | [] => []
  | (k1, v1) :: rest =>
    if k1 == k then eraseKey k rest else (k1, v1) :: eraseKey k rest

/-- Reading the provider-specific sub-config as an object: the sub-config
defaulting operator maps null and undefined to the empty object, and the
object spread of a primitive contributes no keys, so any non-object value
also behaves as the empty object. -/
def subConfig (cfg : Config) (name : String) : Config :=
  match List.lookup name cfg with
  | some (CfgVal.vObj o) => o
  | _ => []

/-- The storage capability currently installed in the configuration, when
the storage key is bound to a storage object. -/
def getStorage (cfg : Config) : Option StorageModel :=
  match List.lookup "storage" cfg with
  | some (CfgVal.vStorage st) => some st
  | _ => none

/-- Replacing the storage binding of the configuration, modelling the
in-place mutation of the storage object the configuration references. -/
def updateStorageCfg : Config → StorageModel → Config
  | [], _ => []
  | (k1, v1) :: rest, st =>
    if k1 == "storage" then ("storage", CfgVal.vStorage st) :: updateStorageCfg rest st
    else (k1, v1) :: updateStorageCfg rest st

/-- Model of an InAppMessagingProvider, the capability record the engine
calls through.  processInAppMessages receives the result of the cache read,
which is none when the read failed (the JavaScript value undefined), and
getInAppMessages is the sequence the provider would fetch (none modelling a
provider resolving to undefined). -/
structure Provider (Msg Evt : Type) where
  getProviderName : String
  getCategory : String
  getSubCategory : String
  processInAppMessages : Option (List Msg) → Evt → List Msg
  getInAppMessages : Option (List Msg)

/-- The four lifecycle event kinds of the internal pub/sub. -/
inductive MessageEvent where
  | MESSAGES_RECEIVED
  | MESSAGE_DISPLAYED
  | MESSAGE_DISMISSED
  | MESSAGE_ACTION_TAKEN
deriving DecidableEq

/-- Externally observable actions of the engine, recorded in order:
configure calls into a provider (with the exact argument passed),
processInAppMessages calls into a provider, storage reads/writes/removals,
storage sync invocations, publications to lifecycle listeners, and the Hub
subscription. -/
inductive Effect (Msg Evt : Type) where
  | provConfigure (name : String) (arg : Option CfgVal)
  | provProcess (name : String) (msgs : Option (List Msg)) (event : Evt)
  | cacheRead (key : String)
  | storageSet (key : String) (value : String)
  | storageRemove (key : String)
  | storageSync
  | publish (kind : MessageEvent) (payload : List Msg)
  | hubListen

/-- The mutable fields of the InAppMessaging class instance. -/
structure IAMState (Msg Evt : Type) where
  config : Config
  listeningForAnalyticEvents : Bool
  pluggables : List (Provider Msg Evt)
  storageSynced : Bool

/-- Payload shape of the analytics Hub capsule: an event discriminator
string and a data field. -/
structure HubPayload (D : Type) where
  event : String
  data : D

/-- Abstract JSON codec for message sequences, standing for JSON.stringify
and JSON.parse; parse returns none when parsing would throw. -/
structure Codec (Msg : Type) where
  stringify : List Msg → String
  parse : String → Option (List Msg)

/-- Fixed suffix appended to a provider name to obtain its cache key. -/
def STORAGE_KEY_SUFFIX : String := "_inAppMessages"

/-- State built by the constructor: a config holding only the storage
capability, not listening for analytics events, an empty registry and an
unsynced storage flag. -/
def initialState {Msg Evt : Type} (st0 : StorageModel) : IAMState Msg Evt :=
  { config := [("storage", CfgVal.vStorage st0)]
    listeningForAnalyticEvents := false
    pluggables := []
    storageSynced := false }

variable {Msg Evt : Type}

/-- Model of the private syncStorage method: if the storage object has a
sync function it is invoked; on success (or when absent) storageSynced is
set to true; a throw from the sync call (or from accessing an undefined
storage object) is caught and leaves the flag false. -/
def syncStorage (s : IAMState Msg Evt) : IAMState Msg Evt × List (Effect Msg Evt) :=
  match getStorage s.config with
  | none => (s, [])
  | some st =>
    match st.syncResult with
    | none => ({ s with storageSynced := true }, [])
    | some true => ({ s with storageSynced := true }, [Effect.storageSync])
    | some false => (s, [Effect.storageSync])

/-- The guard every cache operation runs first: syncStorage is invoked only
while storageSynced is false. -/
def ensureSynced (s : IAMState Msg Evt) : IAMState Msg Evt × List (Effect Msg Evt) :=
  if s.storageSynced then (s, []) else syncStorage s

/-- Body of the try block of getMessages, from the storage destructuring to
the parse: error means a throw (undefined storage, a throwing getItem, or a
parse failure), caught by the enclosing catch.  A falsy stored value (absent
key or empty string) yields the empty sequence without parsing. -/
def getMessagesBody (c : Codec Msg) (ost : Option StorageModel) (key : String) :
    Except Unit (List Msg) :=
  match ost with
  | none => Except.error ()
  | some st =>
    if st.getFails then Except.error ()
    else
      match List.lookup key st.store with
      | none => Except.ok []
      | some str =>
        if str = "" then Except.ok []
        else
          match c.parse str with
          | none => Except.error ()
          | some ms => Except.ok ms

/-- Model of the private getMessages method: ensure the storage is synced,
read and parse the stored value; any throw is caught and the call resolves
to none (the JavaScript value undefined). -/
def getMessages (c : Codec Msg) (s : IAMState Msg Evt) (key : String) :
    IAMState Msg Evt × Option (List Msg) × List (Effect Msg Evt) :=
  match getMessagesBody c (getStorage (ensureSynced s).1.config) key with
  | Except.ok ms => ((ensureSynced s).1, some ms, (ensureSynced s).2 ++ [Effect.cacheRead key])
  | Except.error _ => ((ensureSynced s).1, none, (ensureSynced s).2 ++ [Effect.cacheRead key])

/-- Model of the private setMessages method: an absent messages argument
returns before touching anything; otherwise ensure the storage is synced and
write the serialized sequence, catching any throw from setItem. -/
def setMessages (c : Codec Msg) (s : IAMState Msg Evt) (key : String)
    (messages : Option (List Msg)) : IAMState Msg Evt × List (Effect Msg Evt) :=
  match messages with
  | none => (s, [])
  | some ms =>
    match getStorage (ensureSynced s).1.config with
    | none => ((ensureSynced s).1, (ensureSynced s).2)
    | some st =>
      if st.setFails then
        ((ensureSynced s).1, (ensureSynced s).2 ++ [Effect.storageSet key (c.stringify ms)])
      else
        ({ (ensureSynced s).1 with
            config := updateStorageCfg (ensureSynced s).1.config
              { st with store := (key, c.stringify ms) :: st.store } },
         (ensureSynced s).2 ++ [Effect.storageSet key (c.stringify ms)])

/-- Model of the private removeMessages method: ensure the storage is
synced and remove the key, catching any throw from removeItem. -/
def removeMessages (s : IAMState Msg Evt) (key : String) :
    IAMState Msg Evt × List (Effect Msg Evt) :=
  match getStorage (ensureSynced s).1.config with
  | none => ((ensureSynced s).1, (ensureSynced s).2)
  | some st =>
    if st.removeFails then
      ((ensureSynced s).1, (ensureSynced s).2 ++ [Effect.storageRemove key])
    else
      ({ (ensureSynced s).1 with
          config := updateStorageCfg (ensureSynced s).1.config
            { st with store := st.store.filter fun p => !(p.1 == key) } },
       (ensureSynced s).2 ++ [Effect.storageRemove key])

/-- Model of addPluggable: a provider passing the category/subCategory
check is appended to the registry and immediately configured with the value
found at its name in the global config (none, that is undefined, when
absent); a provider failing the check is silently ignored. -/
def addPluggable (s : IAMState Msg Evt) (p : Provider Msg Evt) :
    IAMState Msg Evt × List (Effect Msg Evt) :=
  if p.getCategory = "Notifications" ∧ p.getSubCategory = "InAppMessaging" then
    ({ s with pluggables := s.pluggables ++ [p] },
     [Effect.provConfigure p.getProviderName (List.lookup p.getProviderName s.config)])
  else (s, [])

/-- Refinement comparison definition written from the words of the spec for
register(provider): on acceptance it appends the provider and configures it
with the merge of the global config and the sub-config at the provider
name, defaulting to the empty object.  This definition follows the spec,
not the source; compare with addPluggable. -/
def addPluggableSpec (s : IAMState Msg Evt) (p : Provider Msg Evt) :
    IAMState Msg Evt × List (Effect Msg Evt) :=
  if p.getCategory = "Notifications" ∧ p.getSubCategory = "InAppMessaging" then
    ({ s with pluggables := s.pluggables ++ [p] },
     [Effect.provConfigure p.getProviderName
        (some (CfgVal.vObj (mergeAssoc s.config (subConfig s.config p.getProviderName))))])
  else (s, [])

/-- Removal of the first provider whose name matches, modelling findIndex
followed by splice; when no name matches the registry is unchanged. -/
def removeFirstByName : List (Provider Msg Evt) → String → List (Provider Msg Evt)
  | [], _ => []
  | p :: ps, n => if p.getProviderName == n then ps else p :: removeFirstByName ps n

/-- Model of removePluggable. -/
def removePluggable (s : IAMState Msg Evt) (providerName : String) : IAMState Msg Evt :=
  { s with pluggables := removeFirstByName s.pluggables providerName }

/-- Per-provider loop of dispatchEvent: for each provider in registry
order, read its cache slot and hand the result to processInAppMessages,
collecting the per-provider result sequences and the trace.  The source
fans the branches out with Promise.all; under the single-threaded
cooperative model this is the in-order interleaving. -/
def dispatchLoop (c : Codec Msg) (e : Evt) :
    List (Provider Msg Evt) → IAMState Msg Evt →
    IAMState Msg Evt × List (List Msg) × List (Effect Msg Evt)
  | [], s => (s, [], [])
  | p :: ps, s =>
    ((dispatchLoop c e ps (getMessages c s (p.getProviderName ++ STORAGE_KEY_SUFFIX)).1).1,
     p.processInAppMessages (getMessages c s (p.getProviderName ++ STORAGE_KEY_SUFFIX)).2.1 e
       :: (dispatchLoop c e ps (getMessages c s (p.getProviderName ++ STORAGE_KEY_SUFFIX)).1).2.1,
     (getMessages c s (p.getProviderName ++ STORAGE_KEY_SUFFIX)).2.2
       ++ [Effect.provProcess p.getProviderName
             (getMessages c s (p.getProviderName ++ STORAGE_KEY_SUFFIX)).2.1 e]
       ++ (dispatchLoop c e ps (getMessages c s (p.getProviderName ++ STORAGE_KEY_SUFFIX)).1).2.2)

/-- Model of dispatchEvent: collect every provider result, flatten one
level, and when the flattened sequence is non-empty publish it once to the
MESSAGES_RECEIVED listeners. -/
def dispatchEvent (c : Codec Msg) (s : IAMState Msg Evt) (event : Evt) :
    IAMState Msg Evt × List (Effect Msg Evt) :=
  ((dispatchLoop c event s.pluggables s).1,
   (dispatchLoop c event s.pluggables s).2.2 ++
     (if (dispatchLoop c event s.pluggables s).2.1.flatten.isEmpty then []
      else [Effect.publish MessageEvent.MESSAGES_RECEIVED
              (dispatchLoop c event s.pluggables s).2.1.flatten]))

/-- Model of the private analyticsListener Hub callback: only a capsule
whose event discriminator is the record marker is forwarded (its data
field) to dispatchEvent; every other capsule falls to the default case and
is dropped. -/
def analyticsListener (c : Codec Msg) (s : IAMState Msg Evt) (payload : HubPayload Evt) :
    IAMState Msg Evt × List (Effect Msg Evt) :=
  if payload.event == "record" then dispatchEvent c s payload.data else (s, [])

/-- Per-provider loop of syncMessages: fetch each provider messages and
write them to the provider cache slot. -/
def syncLoop (c : Codec Msg) :
    List (Provider Msg Evt) → IAMState Msg Evt → IAMState Msg Evt × List (Effect Msg Evt)
  | [], s => (s, [])
  | p :: ps, s =>
    ((syncLoop c ps
        (setMessages c s (p.getProviderName ++ STORAGE_KEY_SUFFIX) p.getInAppMessages).1).1,
     (setMessages c s (p.getProviderName ++ STORAGE_KEY_SUFFIX) p.getInAppMessages).2 ++
       (syncLoop c ps
         (setMessages c s (p.getProviderName ++ STORAGE_KEY_SUFFIX) p.getInAppMessages).1).2)

/-- Model of syncMessages. -/
def syncMessages (c : Codec Msg) (s : IAMState Msg Evt) :
    IAMState Msg Evt × List (Effect Msg Evt) :=
  syncLoop c s.pluggables s

/-- Per-provider loop of clearMessages: remove each provider cache slot. -/
def clearLoop :
    List (Provider Msg Evt) → IAMState Msg Evt → IAMState Msg Evt × List (Effect Msg Evt)
  | [], s => (s, [])
  | p :: ps, s =>
    ((clearLoop ps (removeMessages s (p.getProviderName ++ STORAGE_KEY_SUFFIX)).1).1,
     (removeMessages s (p.getProviderName ++ STORAGE_KEY_SUFFIX)).2 ++
       (clearLoop ps (removeMessages s (p.getProviderName ++ STORAGE_KEY_SUFFIX)).1).2)

/-- Model of clearMessages. -/
def clearMessages (s : IAMState Msg Evt) : IAMState Msg Evt × List (Effect Msg Evt) :=
  clearLoop s.pluggables s

/-- Model of the configure method.  The listenForAnalyticsEvents key is
destructured out of the argument (defaulting to true) before the rest is
shallow-merged onto the stored config; every registered provider is then
re-configured with the merge of the new config and its sub-config; when the
registry is still empty the default provider is registered through
addPluggable; finally the Hub subscription is installed once.  The default
provider class (AWSPinpointProvider) lives outside the sources under study,
so the freshly constructed instance is taken as the parameter dp. -/
def configure (dp : Provider Msg Evt) (s : IAMState Msg Evt) (cfg : Config) :
    IAMState Msg Evt × List (Effect Msg Evt) :=
  let lfae : Bool :=
    match List.lookup "listenForAnalyticsEvents" cfg with
    | some v => cfgTruthy v
    | none => true
  let newConfig := mergeAssoc s.config (eraseKey "listenForAnalyticsEvents" cfg)
  let s1 : IAMState Msg Evt := { s with config := newConfig }
  let cfgTrace := s1.pluggables.map fun p =>
    Effect.provConfigure p.getProviderName
      (some (CfgVal.vObj (mergeAssoc newConfig (subConfig newConfig p.getProviderName))))
  let r2 := if s1.pluggables.isEmpty then addPluggable s1 dp else (s1, [])
  let r3 :=
    if lfae && !r2.1.listeningForAnalyticEvents then
      ({ r2.1 with listeningForAnalyticEvents := true }, [Effect.hubListen])
    else (r2.1, [])
  (r3.1, cfgTrace ++ r2.2 ++ r3.2)

/-- Publications to MESSAGES_RECEIVED listeners appearing in a trace, in
order, each carrying its payload. -/
def publishedMsgs (t : List (Effect Msg Evt)) : List (List Msg) :=
  t.filterMap fun e =>
    match e with
    | Effect.publish MessageEvent.MESSAGES_RECEIVED ms => some ms
    | _ => none

/-- Names of the providers whose processInAppMessages is called in a trace,
in call order. -/
def provCalls (t : List (Effect Msg Evt)) : List String :=
  t.filterMap fun e =>
    match e with
    | Effect.provProcess n _ _ => some n
    | _ => none

/-- Cache reads appearing in a trace, in order. -/
def cacheReads (t : List (Effect Msg Evt)) : List String :=
  t.filterMap fun e =>
    match e with
    | Effect.cacheRead k => some k
    | _ => none

/-- The capability check addPluggable performs. -/
def providerOk (p : Provider Msg Evt) : Prop :=
  p.getCategory = "Notifications" ∧ p.getSubCategory = "InAppMessaging"

/-- Every provider of the registry passes the capability check. -/
def registryOk (s : IAMState Msg Evt) : Prop := ∀ p ∈ s.pluggables, providerOk p

/-- Engine states reachable from the constructor state through the public
operations. -/
inductive Reachable : IAMState Msg Evt → Prop where
  | init (st0 : StorageModel) : Reachable (initialState st0)
  | stepConfigure {s : IAMState Msg Evt} (dp : Provider Msg Evt) (cfg : Config) :
      Reachable s → Reachable (configure dp s cfg).1
  | stepAddPluggable {s : IAMState Msg Evt} (p : Provider Msg Evt) :
      Reachable s → Reachable (addPluggable s p).1
  | stepRemovePluggable {s : IAMState Msg Evt} (n : String) :
      Reachable s → Reachable (removePluggable s n)
  | stepSyncMessages {s : IAMState Msg Evt} (c : Codec Msg) :
      Reachable s → Reachable (syncMessages c s).1
  | stepClearMessages {s : IAMState Msg Evt} :
      Reachable s → Reachable (clearMessages s).1
  | stepDispatchEvent {s : IAMState Msg Evt} (c : Codec Msg) (e : Evt) :
      Reachable s → Reachable (dispatchEvent c s e).1
  | stepAnalyticsListener {s : IAMState Msg Evt} (c : Codec Msg) (payload : HubPayload Evt) :
      Reachable s → Reachable (analyticsListener c s payload).1

/-! Concrete instances used to exercise the definitions on explicit
inputs: a plain storage capability without a sync function, variants whose
operations fail, simple codecs, and small providers. -/

/-- Empty storage, no failures, no sync function. -/
def fixStorage : StorageModel :=
  { store := [], getFails := false, setFails := false, removeFails := false,
    syncResult := none }

/-- Empty storage whose sync function succeeds. -/
def fixStorageSyncOk : StorageModel := { fixStorage with syncResult := some true }

/-- Empty storage whose sync function throws. -/
def fixStorageSyncBad : StorageModel := { fixStorage with syncResult := some false }

/-- Empty storage whose getItem throws. -/
def fixStorageGetBad : StorageModel := { fixStorage with getFails := true }

/-- Storage holding an unparsable value under the key k. -/
def fixStorageWithVal : StorageModel := { fixStorage with store := [("k", "zz")] }

/-- Codec over Nat messages whose parse always succeeds with the empty
sequence. -/
def fixCodecNat : Codec Nat :=
  { stringify := fun _ => "x", parse := fun _ => some [] }

/-- Codec over Nat messages whose parse always throws. -/
def fixCodecNone : Codec Nat :=
  { stringify := fun _ => "x", parse := fun _ => none }

/-- Codec over Bool messages that serializes each element to one character
and parses it back, a concrete codec whose parse inverts stringify. -/
def fixCodecBool : Codec Bool :=
  { stringify := fun ms => String.mk (ms.map fun b => if b then 't' else 'f')
    parse := fun str => some (str.data.map fun ch => ch == 't') }

/-- A provider named p passing the capability check, always matching the
message 0. -/
def fixProvNat : Provider Nat Unit :=
  { getProviderName := "p", getCategory := "Notifications"
    getSubCategory := "InAppMessaging"
    processInAppMessages := fun _ _ => [0], getInAppMessages := some [] }

/-- A provider over Hub-capsule events, used to call dispatchEvent directly
with an analytics capsule as its argument. -/
def fixProvHub : Provider Nat (HubPayload Unit) :=
  { getProviderName := "p", getCategory := "Notifications"
    getSubCategory := "InAppMessaging"
    processInAppMessages := fun _ _ => [0], getInAppMessages := some [] }

/-- Engine state with one registered Hub-event provider. -/
def fixStateC1 : IAMState Nat (HubPayload Unit) :=
  { (initialState fixStorage : IAMState Nat (HubPayload Unit)) with
    pluggables := [fixProvHub] }

/-- Provider P1 of the aggregation example, always returning the single
message 5. -/
def fixProvA : Provider Nat Unit :=
  { getProviderName := "P1", getCategory := "Notifications"
    getSubCategory := "InAppMessaging"
    processInAppMessages := fun _ _ => [5], getInAppMessages := some [] }

/-- Provider P2 of the aggregation example, always returning no match. -/
def fixProvB : Provider Nat Unit :=
  { getProviderName := "P2", getCategory := "Notifications"
    getSubCategory := "InAppMessaging"
    processInAppMessages := fun _ _ => [], getInAppMessages := some [] }

/-- Engine state with the two aggregation-example providers registered. -/
def fixStateTwo : IAMState Nat Unit :=
  { (initialState fixStorage : IAMState Nat Unit) with
    pluggables := [fixProvA, fixProvB] }

/-- Engine state whose storage flag is already synced. -/
def fixStateSynced : IAMState Nat Unit :=
  { (initialState fixStorage : IAMState Nat Unit) with storageSynced := true }

/-! Basic lemmas about association-list lookup, merge, erase and the
storage binding. -/

theorem beq_false_of_ne {a b : String} (h : ¬ a = b) : (a == b) = false := by
  cases h2 : (a == b)
  · rfl
  · exact absurd (by simpa using h2) h

theorem lookup_cons_eq {β : Type} (k k1 : String) (v1 : β) (l : List (String × β)) :
    List.lookup k ((k1, v1) :: l) = if k == k1 then some v1 else List.lookup k l := by
  cases hk : (k == k1) <;> simp [List.lookup, hk]

theorem mergeAssoc_cons (k1 : String) (v1 : CfgVal) (rest b : Config) :
    mergeAssoc ((k1, v1) :: rest) b =
      if (List.lookup k1 b).isNone then (k1, v1) :: mergeAssoc rest b
      else mergeAssoc rest b := rfl

theorem lookup_mergeAssoc (k : String) (a b : Config) :
    List.lookup k (mergeAssoc a b) =
      match List.lookup k b with
      | some v => some v
      | none => List.lookup k a := by
  induction a with
  | nil =>
    cases hb : List.lookup k b <;> simp [mergeAssoc, hb]
  | cons p rest ih =>
    obtain ⟨k1, v1⟩ := p
    by_cases h1 : (List.lookup k1 b).isNone
    · have hbnone : List.lookup k1 b = none := Option.isNone_iff_eq_none.mp h1
      rw [mergeAssoc_cons, if_pos h1]
      by_cases hk : k = k1
      · subst hk
        simp [lookup_cons_eq, hbnone]
      · have hkb : (k == k1) = false := beq_false_of_ne hk
        rw [lookup_cons_eq]
        simp only [hkb, Bool.false_eq_true, if_false]
        rw [ih]
        cases hb : List.lookup k b <;> simp [hb, lookup_cons_eq, hkb]
    · rw [mergeAssoc_cons, if_neg h1, ih]
      by_cases hk : k = k1
      · subst hk
        cases hw : List.lookup k b
        · rw [hw] at h1; simp at h1
        · simp [hw]
      · have hkb : (k == k1) = false := beq_false_of_ne hk
        cases hb : List.lookup k b <;> simp [hb, lookup_cons_eq, hkb]

theorem lookup_eraseKey_self (k : String) (cfg : Config) :
    List.lookup k (eraseKey k cfg) = none := by
  induction cfg with
  | nil => rfl
  | cons p rest ih =>
    obtain ⟨k1, v1⟩ := p
    by_cases hk : k1 = k
    · subst hk
      simpa [eraseKey] using ih
    · have hkb : (k1 == k) = false := beq_false_of_ne hk
      have hkb2 : (k == k1) = false := beq_false_of_ne fun hh => hk hh.symm
      simpa [eraseKey, hkb, lookup_cons_eq, hkb2] using ih

theorem lookup_eraseKey_ne (k k2 : String) (cfg : Config) (h : ¬ k2 = k) :
    List.lookup k2 (eraseKey k cfg) = List.lookup k2 cfg := by
  induction cfg with
  | nil => rfl
  | cons p rest ih =>
    obtain ⟨k1, v1⟩ := p
    by_cases hk : k1 = k
    · subst hk
      have hkb : (k2 == k1) = false := beq_false_of_ne h
      simpa [eraseKey, lookup_cons_eq, hkb] using ih
    · have hkb1 : (k1 == k) = false := beq_false_of_ne hk
      by_cases hk2 : k2 = k1
      · subst hk2
        simp [eraseKey, hkb1, lookup_cons_eq]
      · have hkb2 : (k2 == k1) = false := beq_false_of_ne hk2
        simpa [eraseKey, hkb1, lookup_cons_eq, hkb2] using ih

theorem getStorage_cons (k1 : String) (v1 : CfgVal) (rest : Config) :
    getStorage ((k1, v1) :: rest) =
      if "storage" == k1 then
        (match v1 with | CfgVal.vStorage st => some st | _ => none)
      else getStorage rest := by
  cases hk : ("storage" == k1)
  · simp [getStorage, lookup_cons_eq, hk]
  · cases v1 <;> simp [getStorage, lookup_cons_eq, hk]

theorem updateStorageCfg_cons (k1 : String) (v1 : CfgVal) (rest : Config) (st : StorageModel) :
    updateStorageCfg ((k1, v1) :: rest) st =
      if k1 == "storage" then ("storage", CfgVal.vStorage st) :: updateStorageCfg rest st
      else (k1, v1) :: updateStorageCfg rest st := rfl

theorem getStorage_updateStorageCfg (cfg : Config) (st0 st1 : StorageModel)
    (h : getStorage cfg = some st0) :
    getStorage (updateStorageCfg cfg st1) = some st1 := by
  induction cfg with
  | nil => simp [getStorage, List.lookup] at h
  | cons p rest ih =>
    obtain ⟨k1, v1⟩ := p
    by_cases hk : k1 = "storage"
    · subst hk
      rw [updateStorageCfg_cons]
      simp only [beq_self_eq_true, if_true]
      rw [getStorage_cons]
      simp
    · have hkb : (k1 == "storage") = false := beq_false_of_ne hk
      have hkb2 : ("storage" == k1) = false := beq_false_of_ne fun hh => hk hh.symm
      rw [updateStorageCfg_cons]
      simp only [hkb, Bool.false_eq_true, if_false]
      rw [getStorage_cons] at h
      simp only [hkb2, Bool.false_eq_true, if_false] at h
      rw [getStorage_cons]
      simp only [hkb2, Bool.false_eq_true, if_false]
      exact ih h

/-! Lemmas about which state fields each operation can change. -/

theorem syncStorage_config (s : IAMState Msg Evt) : (syncStorage s).1.config = s.config := by
  unfold syncStorage
  cases h : getStorage s.config with
  | none => rfl
  | some st =>
    cases hr : st.syncResult with
    | none => simp [hr]
    | some b => cases b <;> simp [hr, publishedMsgs, provCalls]

theorem syncStorage_pluggables (s : IAMState Msg Evt) :
    (syncStorage s).1.pluggables = s.pluggables := by
  unfold syncStorage
  cases h : getStorage s.config with
  | none => rfl
  | some st =>
    cases hr : st.syncResult with
    | none => simp [hr]
    | some b => cases b <;> simp [hr, publishedMsgs, provCalls]

theorem ensureSynced_config (s : IAMState Msg Evt) : (ensureSynced s).1.config = s.config := by
  unfold ensureSynced
  split
  · rfl
  · exact syncStorage_config s

theorem ensureSynced_pluggables (s : IAMState Msg Evt) :
    (ensureSynced s).1.pluggables = s.pluggables := by
  unfold ensureSynced
  split
  · rfl
  · exact syncStorage_pluggables s

theorem getMessages_fst (c : Codec Msg) (s : IAMState Msg Evt) (key : String) :
    (getMessages c s key).1 = (ensureSynced s).1 := by
  unfold getMessages
  split <;> rfl

theorem getMessages_config (c : Codec Msg) (s : IAMState Msg Evt) (key : String) :
    (getMessages c s key).1.config = s.config := by
  rw [getMessages_fst, ensureSynced_config]

theorem getMessages_pluggables (c : Codec Msg) (s : IAMState Msg Evt) (key : String) :
    (getMessages c s key).1.pluggables = s.pluggables := by
  rw [getMessages_fst, ensureSynced_pluggables]

theorem setMessages_pluggables (c : Codec Msg) (s : IAMState Msg Evt) (key : String)
    (m : Option (List Msg)) : (setMessages c s key m).1.pluggables = s.pluggables := by
  unfold setMessages
  split
  · rfl
  · split
    · exact ensureSynced_pluggables s
    · split
      · exact ensureSynced_pluggables s
      · exact ensureSynced_pluggables s

theorem removeMessages_pluggables (s : IAMState Msg Evt) (key : String) :
    (removeMessages s key).1.pluggables = s.pluggables := by
  unfold removeMessages
  split
  · exact ensureSynced_pluggables s
  · split
    · exact ensureSynced_pluggables s
    · exact ensureSynced_pluggables s

theorem dispatchLoop_pluggables (c : Codec Msg) (e : Evt) (ps : List (Provider Msg Evt)) :
    ∀ s : IAMState Msg Evt, (dispatchLoop c e ps s).1.pluggables = s.pluggables := by
  induction ps with
  | nil => intro s; rfl
  | cons p rest ih =>
    intro s
    have hstep : (dispatchLoop c e (p :: rest) s).1
        = (dispatchLoop c e rest
            (getMessages c s (p.getProviderName ++ STORAGE_KEY_SUFFIX)).1).1 := rfl
    rw [hstep, ih, getMessages_pluggables]

theorem dispatchEvent_pluggables (c : Codec Msg) (s : IAMState Msg Evt) (e : Evt) :
    (dispatchEvent c s e).1.pluggables = s.pluggables := by
  have hstep : (dispatchEvent c s e).1 = (dispatchLoop c e s.pluggables s).1 := rfl
  rw [hstep, dispatchLoop_pluggables]

theorem syncLoop_pluggables (c : Codec Msg) (ps : List (Provider Msg Evt)) :
    ∀ s : IAMState Msg Evt, (syncLoop c ps s).1.pluggables = s.pluggables := by
  induction ps with
  | nil => intro s; rfl
  | cons p rest ih =>
    intro s
    have hstep : (syncLoop c (p :: rest) s).1
        = (syncLoop c rest
            (setMessages c s (p.getProviderName ++ STORAGE_KEY_SUFFIX) p.getInAppMessages).1).1 :=
      rfl
    rw [hstep, ih, setMessages_pluggables]

theorem clearLoop_pluggables (ps : List (Provider Msg Evt)) :
    ∀ s : IAMState Msg Evt, (clearLoop ps s).1.pluggables = s.pluggables := by
  induction ps with
  | nil => intro s; rfl
  | cons p rest ih =>
    intro s
    have hstep : (clearLoop (p :: rest) s).1
        = (clearLoop rest (removeMessages s (p.getProviderName ++ STORAGE_KEY_SUFFIX)).1).1 := rfl
    rw [hstep, ih, removeMessages_pluggables]

theorem addPluggable_config (s : IAMState Msg Evt) (p : Provider Msg Evt) :
    (addPluggable s p).1.config = s.config := by
  unfold addPluggable
  split <;> rfl

/-! Lemmas about the trace projections. -/

theorem publishedMsgs_append (t1 t2 : List (Effect Msg Evt)) :
    publishedMsgs (t1 ++ t2) = publishedMsgs t1 ++ publishedMsgs t2 :=
  List.filterMap_append t1 t2 _

theorem provCalls_append (t1 t2 : List (Effect Msg Evt)) :
    provCalls (t1 ++ t2) = provCalls t1 ++ provCalls t2 :=
  List.filterMap_append t1 t2 _

theorem publishedMsgs_syncStorage (s : IAMState Msg Evt) :
    publishedMsgs (syncStorage s).2 = [] := by
  unfold syncStorage
  cases h : getStorage s.config with
  | none => rfl
  | some st =>
    cases hr : st.syncResult with
    | none => simp [hr, publishedMsgs]
    | some b => cases b <;> simp [hr, publishedMsgs]

theorem publishedMsgs_ensureSynced (s : IAMState Msg Evt) :
    publishedMsgs (ensureSynced s).2 = [] := by
  unfold ensureSynced
  split
  · rfl
  · exact publishedMsgs_syncStorage s

theorem provCalls_syncStorage (s : IAMState Msg Evt) :
    provCalls (syncStorage s).2 = [] := by
  unfold syncStorage
  cases h : getStorage s.config with
  | none => rfl
  | some st =>
    cases hr : st.syncResult with
    | none => simp [hr, provCalls]
    | some b => cases b <;> simp [hr, provCalls]

theorem provCalls_ensureSynced (s : IAMState Msg Evt) :
    provCalls (ensureSynced s).2 = [] := by
  unfold ensureSynced
  split
  · rfl
  · exact provCalls_syncStorage s

theorem publishedMsgs_cacheRead (key : String) :
    publishedMsgs [(Effect.cacheRead key : Effect Msg Evt)] = [] := rfl

theorem provCalls_cacheRead (key : String) :
    provCalls [(Effect.cacheRead key : Effect Msg Evt)] = [] := rfl

theorem publishedMsgs_getMessages (c : Codec Msg) (s : IAMState Msg Evt) (key : String) :
    publishedMsgs (getMessages c s key).2.2 = [] := by
  unfold getMessages
  split <;>
    simp [publishedMsgs_append, publishedMsgs_ensureSynced, publishedMsgs_cacheRead]

theorem provCalls_getMessages (c : Codec Msg) (s : IAMState Msg Evt) (key : String) :
    provCalls (getMessages c s key).2.2 = [] := by
  unfold getMessages
  split <;>
    simp [provCalls_append, provCalls_ensureSynced, provCalls_cacheRead]

theorem publishedMsgs_dispatchLoop (c : Codec Msg) (e : Evt) (ps : List (Provider Msg Evt)) :
    ∀ s : IAMState Msg Evt, publishedMsgs (dispatchLoop c e ps s).2.2 = [] := by
  induction ps with
  | nil => intro s; rfl
  | cons p rest ih =>
    intro s
    have hstep : (dispatchLoop c e (p :: rest) s).2.2
        = (getMessages c s (p.getProviderName ++ STORAGE_KEY_SUFFIX)).2.2
          ++ [Effect.provProcess p.getProviderName
                (getMessages c s (p.getProviderName ++ STORAGE_KEY_SUFFIX)).2.1 e]
          ++ (dispatchLoop c e rest
              (getMessages c s (p.getProviderName ++ STORAGE_KEY_SUFFIX)).1).2.2 := rfl
    rw [hstep, publishedMsgs_append, publishedMsgs_append, publishedMsgs_getMessages, ih]
    rfl

theorem provCalls_dispatchLoop (c : Codec Msg) (e : Evt) (ps : List (Provider Msg Evt)) :
    ∀ s : IAMState Msg Evt,
      provCalls (dispatchLoop c e ps s).2.2 = ps.map Provider.getProviderName := by
  induction ps with
  | nil => intro s; rfl
  | cons p rest ih =>
    intro s
    have hstep : (dispatchLoop c e (p :: rest) s).2.2
        = (getMessages c s (p.getProviderName ++ STORAGE_KEY_SUFFIX)).2.2
          ++ [Effect.provProcess p.getProviderName
                (getMessages c s (p.getProviderName ++ STORAGE_KEY_SUFFIX)).2.1 e]
          ++ (dispatchLoop c e rest
              (getMessages c s (p.getProviderName ++ STORAGE_KEY_SUFFIX)).1).2.2 := rfl
    rw [hstep, provCalls_append, provCalls_append, provCalls_getMessages, ih]
    rfl

theorem dispatchLoop_length (c : Codec Msg) (e : Evt) (ps : List (Provider Msg Evt)) :
    ∀ s : IAMState Msg Evt, (dispatchLoop c e ps s).2.1.length = ps.length := by
  induction ps with
  | nil => intro s; rfl
  | cons p rest ih =>
    intro s
    have hstep : (dispatchLoop c e (p :: rest) s).2.1
        = p.processInAppMessages
            (getMessages c s (p.getProviderName ++ STORAGE_KEY_SUFFIX)).2.1 e
          :: (dispatchLoop c e rest
              (getMessages c s (p.getProviderName ++ STORAGE_KEY_SUFFIX)).1).2.1 := rfl
    rw [hstep]
    simp [ih]

/-! Value characterization of the cache read: the returned value only
depends on the storage found in the configuration, which the sync step
never changes. -/

theorem getMessages_val (c : Codec Msg) (s : IAMState Msg Evt) (key : String) :
    (getMessages c s key).2.1 =
      match getMessagesBody c (getStorage s.config) key with
      | Except.ok ms => some ms
      | Except.error _ => none := by
  have hc : getStorage (ensureSynced s).1.config = getStorage s.config := by
    rw [ensureSynced_config]
  unfold getMessages
  rw [hc]
  split <;> rename_i heq <;> simp [heq]

/-! Registry invariant machinery: the category/subCategory check, its
preservation by every operation, and the reachable states of the engine. -/

theorem mem_removeFirstByName (l : List (Provider Msg Evt)) (n : String)
    (p : Provider Msg Evt) (h : p ∈ removeFirstByName l n) : p ∈ l := by
  induction l with
  | nil => simp [removeFirstByName] at h
  | cons q rest ih =>
    by_cases hq : (q.getProviderName == n) = true
    · simp only [removeFirstByName, hq, if_true] at h
      exact List.mem_cons_of_mem q h
    · have hqf : (q.getProviderName == n) = false := by
        cases hh : (q.getProviderName == n)
        · rfl
        · exact absurd hh hq
      simp only [removeFirstByName, hqf, Bool.false_eq_true, if_false] at h
      rcases List.mem_cons.mp h with he | hmem
      · exact he ▸ List.mem_cons_self q rest
      · exact List.mem_cons_of_mem q (ih hmem)

theorem registryOk_addPluggable (s : IAMState Msg Evt) (p : Provider Msg Evt)
    (h : registryOk s) : registryOk (addPluggable s p).1 := by
  unfold addPluggable
  split
  · rename_i hc
    intro q hq
    rcases List.mem_append.mp hq with hq1 | hq2
    · exact h q hq1
    · have hqp : q = p := by simpa using hq2
      exact hqp ▸ hc
  · exact h

theorem syncMessages_pluggables (c : Codec Msg) (s : IAMState Msg Evt) :
    (syncMessages c s).1.pluggables = s.pluggables := by
  unfold syncMessages
  rw [syncLoop_pluggables]

theorem clearMessages_pluggables (s : IAMState Msg Evt) :
    (clearMessages s).1.pluggables = s.pluggables := by
  unfold clearMessages
  rw [clearLoop_pluggables]

theorem analyticsListener_pluggables (c : Codec Msg) (s : IAMState Msg Evt)
    (payload : HubPayload Evt) :
    (analyticsListener c s payload).1.pluggables = s.pluggables := by
  unfold analyticsListener
  split
  · exact dispatchEvent_pluggables c s payload.data
  · rfl

theorem registryOk_configure (dp : Provider Msg Evt) (s : IAMState Msg Evt) (cfg : Config)
    (h : registryOk s) : registryOk (configure dp s cfg).1 := by
  have base : registryOk
      ({ s with config := mergeAssoc s.config (eraseKey "listenForAnalyticsEvents" cfg) }
        : IAMState Msg Evt) := fun q hq => h q hq
  simp only [configure]
  split <;> split
  · exact fun q hq => registryOk_addPluggable _ dp base q hq
  · exact fun q hq => registryOk_addPluggable _ dp base q hq
  · exact fun q hq => base q hq
  · exact fun q hq => base q hq

theorem configure_config (dp : Provider Msg Evt) (s : IAMState Msg Evt) (cfg : Config) :
    (configure dp s cfg).1.config
      = mergeAssoc s.config (eraseKey "listenForAnalyticsEvents" cfg) := by
  simp only [configure]
  split <;> split
  · exact addPluggable_config _ dp
  · exact addPluggable_config _ dp
  · rfl
  · rfl

theorem registryOk_reachable (s : IAMState Msg Evt) (h : Reachable s) : registryOk s := by
  induction h with
  | init st0 => intro p hp; simp [initialState] at hp
  | stepConfigure dp cfg hr ih => exact registryOk_configure dp _ cfg ih
  | stepAddPluggable p hr ih => exact registryOk_addPluggable _ p ih
  | stepRemovePluggable n hr ih =>
    intro q hq
    exact ih q (mem_removeFirstByName _ n q hq)
  | stepSyncMessages c hr ih =>
    intro q hq
    rw [syncMessages_pluggables] at hq
    exact ih q hq
  | stepClearMessages hr ih =>
    intro q hq
    rw [clearMessages_pluggables] at hq
    exact ih q hq
  | stepDispatchEvent c e hr ih =>
    intro q hq
    rw [dispatchEvent_pluggables] at hq
    exact ih q hq
  | stepAnalyticsListener c payload hr ih =>
    intro q hq
    rw [analyticsListener_pluggables] at hq
    exact ih q hq

/-! Trace characterizations used by the claims about the dispatch pipeline
and the sync gate. -/

theorem getMessages_trace (c : Codec Msg) (s : IAMState Msg Evt) (key : String) :
    (getMessages c s key).2.2 = (ensureSynced s).2 ++ [Effect.cacheRead key] := by
  unfold getMessages
  split <;> rfl

theorem setMessages_trace_some (c : Codec Msg) (s : IAMState Msg Evt) (key : String)
    (ms : List Msg) :
    (setMessages c s key (some ms)).2 = (ensureSynced s).2 ∨
    (setMessages c s key (some ms)).2
      = (ensureSynced s).2 ++ [Effect.storageSet key (c.stringify ms)] := by
  simp only [setMessages]
  split
  · exact Or.inl rfl
  · split
    · exact Or.inr rfl
    · exact Or.inr rfl

theorem removeMessages_trace (s : IAMState Msg Evt) (key : String) :
    (removeMessages s key).2 = (ensureSynced s).2 ∨
    (removeMessages s key).2 = (ensureSynced s).2 ++ [Effect.storageRemove key] := by
  simp only [removeMessages]
  split
  · exact Or.inl rfl
  · split
    · exact Or.inr rfl
    · exact Or.inr rfl

theorem publishedMsgs_publish_received (ms : List Msg) :
    publishedMsgs [(Effect.publish MessageEvent.MESSAGES_RECEIVED ms : Effect Msg Evt)]
      = [ms] := rfl

theorem publishedMsgs_dispatchEvent (c : Codec Msg) (s : IAMState Msg Evt) (e : Evt) :
    publishedMsgs (dispatchEvent c s e).2
      = (if (dispatchLoop c e s.pluggables s).2.1.flatten.isEmpty then []
         else [(dispatchLoop c e s.pluggables s).2.1.flatten]) := by
  have hE : (dispatchEvent c s e).2
      = (dispatchLoop c e s.pluggables s).2.2 ++
        (if (dispatchLoop c e s.pluggables s).2.1.flatten.isEmpty then []
         else [Effect.publish MessageEvent.MESSAGES_RECEIVED
                 (dispatchLoop c e s.pluggables s).2.1.flatten]) := rfl
  rw [hE, publishedMsgs_append, publishedMsgs_dispatchLoop]
  by_cases hf : (dispatchLoop c e s.pluggables s).2.1.flatten.isEmpty = true
  · simp [hf, publishedMsgs]
  · simp only [hf, Bool.false_eq_true, if_false]
    rw [publishedMsgs_publish_received]
    rfl

theorem provCalls_dispatchEvent (c : Codec Msg) (s : IAMState Msg Evt) (e : Evt) :
    provCalls (dispatchEvent c s e).2 = s.pluggables.map Provider.getProviderName := by
  have hE : (dispatchEvent c s e).2
      = (dispatchLoop c e s.pluggables s).2.2 ++
        (if (dispatchLoop c e s.pluggables s).2.1.flatten.isEmpty then []
         else [Effect.publish MessageEvent.MESSAGES_RECEIVED
                 (dispatchLoop c e s.pluggables s).2.1.flatten]) := rfl
  rw [hE, provCalls_append, provCalls_dispatchLoop]
  by_cases hf : (dispatchLoop c e s.pluggables s).2.1.flatten.isEmpty = true
  · simp [hf, provCalls]
  · simp only [hf, Bool.false_eq_true, if_false]
    simp [provCalls]

/-! Claim theorems. -/

/-- Claim C1, counterexample: dispatchEvent itself performs no discriminator
check.  Calling it directly with the analytics capsule whose event field is
other, against a registry holding one provider, does call that provider
processInAppMessages, does read the cache, and does publish to the
MESSAGES_RECEIVED listeners, contradicting the claim as stated. -/
theorem C1_counterexample :
    provCalls (dispatchEvent fixCodecNat fixStateC1 ⟨"other", ()⟩).2 = ["p"] ∧
    cacheReads (dispatchEvent fixCodecNat fixStateC1 ⟨"other", ()⟩).2
      = ["p_inAppMessages"] ∧
    publishedMsgs (dispatchEvent fixCodecNat fixStateC1 ⟨"other", ()⟩).2 = [[0]] := by
  refine ⟨?_, ?_, ?_⟩ <;> rfl

/-- Claim C1, amended: the discriminator check lives in the analytics
listener, the function that receives analytics events from the Hub.  For
every capsule whose event field is not the record marker, the listener
leaves the state unchanged and produces an empty trace: no provider call,
no cache read, no publication. -/
theorem C1_nonrecord_ignored (c : Codec Msg) (s : IAMState Msg Evt)
    (payload : HubPayload Evt) (h : ¬ payload.event = "record") :
    analyticsListener c s payload = (s, []) := by
  simp [analyticsListener, beq_false_of_ne h]

/-- Witness for C1: the listener drops the capsule with event field other. -/
theorem C1_witness :
    analyticsListener fixCodecNat (initialState fixStorage : IAMState Nat Unit)
      ⟨"other", ()⟩ = ((initialState fixStorage : IAMState Nat Unit), []) :=
  C1_nonrecord_ignored fixCodecNat _ _ (by decide)

/-- Claim C2, counterexample: addPluggable configures the accepted provider
with only the provider-specific sub-config (the JavaScript value undefined
when absent), not with the merge of the global config and the sub-config
that the claim states: on the constructor state, whose config holds the
storage capability and no sub-config for p, the code passes none while the
claimed merge would pass the global config object. -/
theorem C2_counterexample :
    (addPluggable (initialState fixStorage : IAMState Nat Unit) fixProvNat).2
      = [Effect.provConfigure "p" none] ∧
    (addPluggableSpec (initialState fixStorage : IAMState Nat Unit) fixProvNat).2
      = [Effect.provConfigure "p"
          (some (CfgVal.vObj [("storage", CfgVal.vStorage fixStorage)]))] ∧
    (Effect.provConfigure "p" (none : Option CfgVal) : Effect Nat Unit)
      ≠ Effect.provConfigure "p"
          (some (CfgVal.vObj [("storage", CfgVal.vStorage fixStorage)])) := by
  refine ⟨rfl, rfl, ?_⟩
  simp

/-- Claim C2, amended: for every provider passing the category/subCategory
check, addPluggable appends it to the registry and immediately configures
it with the value stored at its name in the global config alone: an absent
sub-config yields the argument undefined (none), with no merge with the
global configuration. -/
theorem C2_addPluggable_subconfig_only (s : IAMState Msg Evt) (p : Provider Msg Evt)
    (h1 : p.getCategory = "Notifications") (h2 : p.getSubCategory = "InAppMessaging") :
    addPluggable s p
      = ({ s with pluggables := s.pluggables ++ [p] },
         [Effect.provConfigure p.getProviderName
            (List.lookup p.getProviderName s.config)]) := by
  unfold addPluggable
  rw [if_pos ⟨h1, h2⟩]

/-- Witness for C2: registering p on the constructor state appends it and
configures it with the absent sub-config. -/
theorem C2_witness :
    addPluggable (initialState fixStorage : IAMState Nat Unit) fixProvNat
      = ({ (initialState fixStorage : IAMState Nat Unit) with
            pluggables := (initialState fixStorage : IAMState Nat Unit).pluggables
              ++ [fixProvNat] },
         [Effect.provConfigure fixProvNat.getProviderName
            (List.lookup fixProvNat.getProviderName
              (initialState fixStorage : IAMState Nat Unit).config)]) :=
  C2_addPluggable_subconfig_only _ _ rfl rfl

/-- Claim C3: in every reachable engine state, every provider of the
registry passes the category/subCategory check; registering a provider
failing either check is a silent no-op leaving the state (hence the
registry length and contents) unchanged, with an empty trace and no
exception (the operation is total). -/
theorem C3_registry_invariant (s : IAMState Msg Evt) (h : Reachable s) :
    (∀ p ∈ s.pluggables,
      p.getCategory = "Notifications" ∧ p.getSubCategory = "InAppMessaging") ∧
    (∀ q : Provider Msg Evt,
      ¬(q.getCategory = "Notifications" ∧ q.getSubCategory = "InAppMessaging") →
      addPluggable s q = (s, [])) := by
  refine ⟨registryOk_reachable s h, ?_⟩
  intro q hq
  unfold addPluggable
  rw [if_neg hq]

/-- Witness for C3 at the constructor state. -/
theorem C3_witness :
    (∀ p ∈ (initialState fixStorage : IAMState Nat Unit).pluggables,
      p.getCategory = "Notifications" ∧ p.getSubCategory = "InAppMessaging") ∧
    (∀ q : Provider Nat Unit,
      ¬(q.getCategory = "Notifications" ∧ q.getSubCategory = "InAppMessaging") →
      addPluggable (initialState fixStorage) q = (initialState fixStorage, [])) :=
  C3_registry_invariant _ (Reachable.init fixStorage)

/-- Claim C4: a dispatch collects every registered provider result (one
processInAppMessages call per provider, in registry order), flattens them
in that order, and publishes the flattened sequence under MESSAGES_RECEIVED
exactly once when it is non-empty and zero times when it is empty; in
particular with P1 returning one match and P2 returning none, exactly one
publication carrying that single match. -/
theorem C4_dispatch_aggregation (c : Codec Msg) (s : IAMState Msg Evt) (e : Evt) :
    publishedMsgs (dispatchEvent c s e).2
      = (if (dispatchLoop c e s.pluggables s).2.1.flatten.isEmpty then []
         else [(dispatchLoop c e s.pluggables s).2.1.flatten]) ∧
    provCalls (dispatchEvent c s e).2 = s.pluggables.map Provider.getProviderName ∧
    (dispatchLoop c e s.pluggables s).2.1.length = s.pluggables.length ∧
    (∀ (P1 P2 : Provider Msg Evt) (a : Msg) (s2 : IAMState Msg Evt),
      s2.pluggables = [P1, P2] →
      (∀ r, P1.processInAppMessages r e = [a]) →
      (∀ r, P2.processInAppMessages r e = []) →
      publishedMsgs (dispatchEvent c s2 e).2 = [[a]]) := by
  refine ⟨publishedMsgs_dispatchEvent c s e, provCalls_dispatchEvent c s e,
    dispatchLoop_length c e s.pluggables s, ?_⟩
  intro P1 P2 a s2 hp h1 h2
  rw [publishedMsgs_dispatchEvent, hp]
  have hres : (dispatchLoop c e [P1, P2] s2).2.1
      = [P1.processInAppMessages
           (getMessages c s2 (P1.getProviderName ++ STORAGE_KEY_SUFFIX)).2.1 e,
         P2.processInAppMessages
           (getMessages c
             (getMessages c s2 (P1.getProviderName ++ STORAGE_KEY_SUFFIX)).1
             (P2.getProviderName ++ STORAGE_KEY_SUFFIX)).2.1 e] := rfl
  rw [hres, h1, h2]
  simp

/-- Witness for C4: the aggregation example with P1 returning the single
message 5 and P2 returning none. -/
theorem C4_witness :
    publishedMsgs (dispatchEvent fixCodecNat fixStateTwo ()).2 = [[5]] :=
  (C4_dispatch_aggregation fixCodecNat fixStateTwo ()).2.2.2 fixProvA fixProvB 5
    fixStateTwo rfl (fun _ => rfl) (fun _ => rfl)

/-- Claim C5: the cache read never raises: the try body is wrapped in a
catch that maps any throw to the undefined result, so a throwing getItem
resolves to none, an absent stored value resolves to the empty sequence,
and an unparsable stored value resolves to none. -/
theorem C5_getMessages_fail_open (c : Codec Msg) (s : IAMState Msg Evt) (key : String)
    (st : StorageModel) (hst : getStorage s.config = some st) :
    (st.getFails = true → (getMessages c s key).2.1 = none) ∧
    (st.getFails = false → List.lookup key st.store = none →
      (getMessages c s key).2.1 = some []) ∧
    (∀ str, st.getFails = false → List.lookup key st.store = some str →
      ¬ str = "" → c.parse str = none → (getMessages c s key).2.1 = none) := by
  refine ⟨?_, ?_, ?_⟩
  · intro hf
    rw [getMessages_val, hst]
    simp [getMessagesBody, hf]
  · intro hf hl
    rw [getMessages_val, hst]
    simp [getMessagesBody, hf, hl]
  · intro str hf hl hne hp
    rw [getMessages_val, hst]
    simp [getMessagesBody, hf, hl, hne, hp]

/-- Witness for C5: a throwing getItem resolves to none, an absent key to
the empty sequence, an unparsable value to none. -/
theorem C5_witness :
    (getMessages fixCodecNat (initialState fixStorageGetBad : IAMState Nat Unit) "k").2.1
      = none ∧
    (getMessages fixCodecNat (initialState fixStorage : IAMState Nat Unit) "k").2.1
      = some [] ∧
    (getMessages fixCodecNone (initialState fixStorageWithVal : IAMState Nat Unit) "k").2.1
      = none :=
  ⟨(C5_getMessages_fail_open fixCodecNat
      (initialState fixStorageGetBad : IAMState Nat Unit) "k" fixStorageGetBad rfl).1 rfl,
   (C5_getMessages_fail_open fixCodecNat
      (initialState fixStorage : IAMState Nat Unit) "k" fixStorage rfl).2.1 rfl rfl,
   (C5_getMessages_fail_open fixCodecNone
      (initialState fixStorageWithVal : IAMState Nat Unit) "k" fixStorageWithVal
      rfl).2.2 "zz" rfl rfl (by decide) rfl⟩

/-- Claim C6: writing a message sequence to a cache slot and reading the
same slot back returns the same sequence in the same order, provided no
storage operation fails and parse inverts stringify (with the serialized
form non-empty, as a JSON-serialized array always is). -/
theorem C6_cache_roundtrip (c : Codec Msg) (s : IAMState Msg Evt) (key : String)
    (st : StorageModel) (ms : List Msg)
    (hst : getStorage s.config = some st)
    (hget : st.getFails = false) (hset : st.setFails = false)
    (hrt : c.parse (c.stringify ms) = some ms)
    (hne : ¬ c.stringify ms = "") :
    (getMessages c (setMessages c s key (some ms)).1 key).2.1 = some ms := by
  have hst1 : getStorage (ensureSynced s).1.config = some st := by
    rw [ensureSynced_config]; exact hst
  have hset1 : (setMessages c s key (some ms)).1
      = { (ensureSynced s).1 with
          config := updateStorageCfg (ensureSynced s).1.config
            { st with store := (key, c.stringify ms) :: st.store } } := by
    simp only [setMessages, hst1, hset, Bool.false_eq_true, if_false]
  have hg2 : getStorage (updateStorageCfg (ensureSynced s).1.config
        { st with store := (key, c.stringify ms) :: st.store })
      = some { st with store := (key, c.stringify ms) :: st.store } :=
    getStorage_updateStorageCfg _ st _ hst1
  rw [hset1, getMessages_val]
  rw [show ({ (ensureSynced s).1 with
        config := updateStorageCfg (ensureSynced s).1.config
          { st with store := (key, c.stringify ms) :: st.store } }
        : IAMState Msg Evt).config
      = updateStorageCfg (ensureSynced s).1.config
          { st with store := (key, c.stringify ms) :: st.store } from rfl]
  rw [hg2]
  simp [getMessagesBody, lookup_cons_eq, hget, hne, hrt]

/-- Witness for C6 with a concrete two-element Bool sequence and the
character codec. -/
theorem C6_witness :
    (getMessages fixCodecBool
      (setMessages fixCodecBool (initialState fixStorage : IAMState Bool Unit) "k"
        (some [true, false])).1 "k").2.1 = some [true, false] :=
  C6_cache_roundtrip fixCodecBool (initialState fixStorage : IAMState Bool Unit) "k"
    fixStorage [true, false] rfl rfl rfl (by decide) (by decide)

/-- Claim C7: the cache write with an absent messages argument returns
before any storage interaction, leaving the whole state unchanged with an
empty trace; writing the empty sequence, by contrast, does invoke setItem
with the serialized empty sequence and stores it. -/
theorem C7_write_none_noop (c : Codec Msg) (s : IAMState Msg Evt) (key : String) :
    setMessages c s key none = (s, []) ∧
    (∀ st : StorageModel, getStorage s.config = some st → st.setFails = false →
      (setMessages c s key (some ([] : List Msg))).2
          = (ensureSynced s).2 ++ [Effect.storageSet key (c.stringify [])] ∧
      getStorage (setMessages c s key (some ([] : List Msg))).1.config
          = some { st with store := (key, c.stringify []) :: st.store }) := by
  refine ⟨rfl, ?_⟩
  intro st hst hset
  have hst1 : getStorage (ensureSynced s).1.config = some st := by
    rw [ensureSynced_config]; exact hst
  have hset1 : setMessages c s key (some ([] : List Msg))
      = ({ (ensureSynced s).1 with
            config := updateStorageCfg (ensureSynced s).1.config
              { st with store := (key, c.stringify []) :: st.store } },
         (ensureSynced s).2 ++ [Effect.storageSet key (c.stringify [])]) := by
    simp only [setMessages, hst1, hset, Bool.false_eq_true, if_false]
  rw [hset1]
  exact ⟨rfl, getStorage_updateStorageCfg _ st _ hst1⟩

/-- Witness for C7: writing the empty sequence on the constructor state
emits the setItem with the serialized empty sequence and stores it. -/
theorem C7_witness :
    setMessages fixCodecNat (initialState fixStorage : IAMState Nat Unit) "k" none
        = ((initialState fixStorage : IAMState Nat Unit), []) ∧
    (setMessages fixCodecNat (initialState fixStorage : IAMState Nat Unit) "k"
        (some ([] : List Nat))).2
      = (ensureSynced (initialState fixStorage : IAMState Nat Unit)).2
        ++ [Effect.storageSet "k" (fixCodecNat.stringify [])] ∧
    getStorage (setMessages fixCodecNat (initialState fixStorage : IAMState Nat Unit)
        "k" (some ([] : List Nat))).1.config
      = some { fixStorage with store := [("k", fixCodecNat.stringify [])] } :=
  ⟨(C7_write_none_noop fixCodecNat (initialState fixStorage : IAMState Nat Unit) "k").1,
   ((C7_write_none_noop fixCodecNat (initialState fixStorage : IAMState Nat Unit)
      "k").2 fixStorage rfl rfl).1,
   ((C7_write_none_noop fixCodecNat (initialState fixStorage : IAMState Nat Unit)
      "k").2 fixStorage rfl rfl).2⟩

/-- Claim C8: the sync step is idempotent-until-failure.  With the flag
already true no cache operation invokes the underlying sync again; with the
flag false a succeeding sync is invoked once and sets the flag; a failing
sync is caught, leaves the flag false so that both this and the next cache
operation invoke sync again, and does not change the value the read
resolves to (the caller sees no error). -/
theorem C8_sync_gate (c : Codec Msg) (s : IAMState Msg Evt) (key : String)
    (msgs : List Msg) (st : StorageModel) (hst : getStorage s.config = some st) :
    (s.storageSynced = true →
      (Effect.storageSync : Effect Msg Evt) ∉ (getMessages c s key).2.2 ∧
      (Effect.storageSync : Effect Msg Evt) ∉ (setMessages c s key (some msgs)).2 ∧
      (Effect.storageSync : Effect Msg Evt) ∉ (removeMessages s key).2) ∧
    (s.storageSynced = false → st.syncResult = some true →
      (syncStorage s).1.storageSynced = true ∧
      (syncStorage s).2 = [Effect.storageSync] ∧
      (getMessages c s key).1.storageSynced = true) ∧
    (s.storageSynced = false → st.syncResult = some false →
      (syncStorage s).1.storageSynced = false ∧
      (getMessages c s key).1.storageSynced = false ∧
      (Effect.storageSync : Effect Msg Evt) ∈ (getMessages c s key).2.2 ∧
      (Effect.storageSync : Effect Msg Evt)
        ∈ (getMessages c (getMessages c s key).1 key).2.2 ∧
      (getMessages c s key).2.1
        = (getMessages c { s with storageSynced := true } key).2.1) := by
  refine ⟨?_, ?_, ?_⟩
  · intro hsy
    have hens : ensureSynced s = (s, []) := by
      unfold ensureSynced
      rw [if_pos hsy]
    refine ⟨?_, ?_, ?_⟩
    · rw [getMessages_trace, hens]
      simp
    · rcases setMessages_trace_some c s key msgs with h | h <;> rw [h, hens] <;> simp
    · rcases removeMessages_trace s key with h | h <;> rw [h, hens] <;> simp
  · intro hsy hsr
    have h1 : syncStorage s = ({ s with storageSynced := true }, [Effect.storageSync]) := by
      simp only [syncStorage, hst, hsr]
    have hens : ensureSynced s
        = ({ s with storageSynced := true }, [Effect.storageSync]) := by
      unfold ensureSynced
      rw [if_neg (by simp [hsy]), h1]
    refine ⟨by rw [h1], by rw [h1], ?_⟩
    rw [getMessages_fst, hens]
  · intro hsy hsr
    have h1 : syncStorage s = (s, [Effect.storageSync]) := by
      simp only [syncStorage, hst, hsr]
    have hens : ensureSynced s = (s, [Effect.storageSync]) := by
      unfold ensureSynced
      rw [if_neg (by simp [hsy]), h1]
    have hstate : (getMessages c s key).1 = s := by
      rw [getMessages_fst, hens]
    refine ⟨by rw [h1]; exact hsy, by rw [hstate]; exact hsy, ?_, ?_, ?_⟩
    · rw [getMessages_trace, hens]
      simp
    · rw [hstate, getMessages_trace, hens]
      simp
    · rw [getMessages_val, getMessages_val]

/-- Witness for C8 on the three storage variants: already-synced state does
not sync, a succeeding sync sets the flag, a failing sync leaves it false
and is retried by the read. -/
theorem C8_witness :
    (Effect.storageSync : Effect Nat Unit)
        ∉ (getMessages fixCodecNat fixStateSynced "k").2.2 ∧
    (syncStorage (initialState fixStorageSyncOk : IAMState Nat Unit)).1.storageSynced
        = true ∧
    (syncStorage (initialState fixStorageSyncBad : IAMState Nat Unit)).1.storageSynced
        = false ∧
    (Effect.storageSync : Effect Nat Unit)
        ∈ (getMessages fixCodecNat
            (initialState fixStorageSyncBad : IAMState Nat Unit) "k").2.2 :=
  ⟨((C8_sync_gate fixCodecNat fixStateSynced "k" [] fixStorage rfl).1 rfl).1,
   ((C8_sync_gate fixCodecNat (initialState fixStorageSyncOk : IAMState Nat Unit) "k"
      [] fixStorageSyncOk rfl).2.1 rfl rfl).1,
   ((C8_sync_gate fixCodecNat (initialState fixStorageSyncBad : IAMState Nat Unit) "k"
      [] fixStorageSyncBad rfl).2.2 rfl rfl).1,
   ((C8_sync_gate fixCodecNat (initialState fixStorageSyncBad : IAMState Nat Unit) "k"
      [] fixStorageSyncBad rfl).2.2 rfl rfl).2.2.1⟩

/-- Claim C9: configure destructures the listenForAnalyticsEvents key out
of its argument before merging, so the stored (and returned) effective
configuration never binds that key, while the storage capability installed
at construction survives every configure call that does not explicitly
provide a storage key. -/
theorem C9_configure_strips (dp : Provider Msg Evt) (s : IAMState Msg Evt) (cfg : Config)
    (h : List.lookup "listenForAnalyticsEvents" s.config = none) :
    List.lookup "listenForAnalyticsEvents" (configure dp s cfg).1.config = none ∧
    (List.lookup "storage" cfg = none →
      List.lookup "storage" (configure dp s cfg).1.config
        = List.lookup "storage" s.config) ∧
    (∀ st0 : StorageModel,
      List.lookup "storage" (initialState st0 : IAMState Msg Evt).config
        = some (CfgVal.vStorage st0)) := by
  refine ⟨?_, ?_, ?_⟩
  · rw [configure_config, lookup_mergeAssoc, lookup_eraseKey_self]
    exact h
  · intro hstcfg
    rw [configure_config, lookup_mergeAssoc,
        lookup_eraseKey_ne "listenForAnalyticsEvents" "storage" cfg (by decide), hstcfg]
  · intro st0
    rfl

/-- Witness for C9: configuring the constructor state with a config binding
only listenForAnalyticsEvents leaves the stored config without that key and
with the constructor storage intact. -/
theorem C9_witness :
    List.lookup "listenForAnalyticsEvents"
        (configure fixProvNat (initialState fixStorage : IAMState Nat Unit)
          [("listenForAnalyticsEvents", CfgVal.vBool false)]).1.config = none ∧
    (List.lookup "storage"
        ([("listenForAnalyticsEvents", CfgVal.vBool false)] : Config) = none →
      List.lookup "storage"
          (configure fixProvNat (initialState fixStorage : IAMState Nat Unit)
            [("listenForAnalyticsEvents", CfgVal.vBool false)]).1.config
        = List.lookup "storage" (initialState fixStorage : IAMState Nat Unit).config) ∧
    (∀ st0 : StorageModel,
      List.lookup "storage" (initialState st0 : IAMState Nat Unit).config
        = some (CfgVal.vStorage st0)) :=
  C9_configure_strips fixProvNat (initialState fixStorage : IAMState Nat Unit)
    [("listenForAnalyticsEvents", CfgVal.vBool false)] rfl

/-- Claim C10: when the installed storage has no sync function, the sync
step succeeds without any sync invocation: it sets the flag and emits no
effect, and a cache read behaves exactly as it would in the already-synced
state. -/
theorem C10_no_sync_function (c : Codec Msg) (s : IAMState Msg Evt) (key : String)
    (st : StorageModel) (hst : getStorage s.config = some st)
    (hsr : st.syncResult = none) :
    syncStorage s = ({ s with storageSynced := true }, []) ∧
    getMessages c s key = getMessages c { s with storageSynced := true } key := by
  have h1 : syncStorage s = ({ s with storageSynced := true }, []) := by
    simp only [syncStorage, hst, hsr]
  refine ⟨h1, ?_⟩
  by_cases hsy : s.storageSynced = true
  · have hse : ({ s with storageSynced := true } : IAMState Msg Evt) = s := by
      cases s
      simp_all
    rw [hse]
  · have hens : ensureSynced s = ({ s with storageSynced := true }, []) := by
      unfold ensureSynced
      rw [if_neg hsy, h1]
    have hens2 : ensureSynced ({ s with storageSynced := true } : IAMState Msg Evt)
        = ({ s with storageSynced := true }, []) := by
      simp [ensureSynced]
    unfold getMessages
    rw [hens, hens2]

/-- Witness for C10 on the sync-less storage fixture. -/
theorem C10_witness :
    syncStorage (initialState fixStorage : IAMState Nat Unit)
        = ({ (initialState fixStorage : IAMState Nat Unit) with storageSynced := true },
           []) ∧
    getMessages fixCodecNat (initialState fixStorage : IAMState Nat Unit) "k"
        = getMessages fixCodecNat
            { (initialState fixStorage : IAMState Nat Unit) with storageSynced := true }
            "k" :=
  C10_no_sync_function fixCodecNat (initialState fixStorage : IAMState Nat Unit) "k"
    fixStorage rfl rfl

end AmplifyIAM
